import Mathlib

/-!
Verification of the task-execution core of the ai-browser-agent repository.

The embedding models:
  * `BrowserController.execute_action` (src/src/browser/controller.py) as a total
    function over an abstract driver whose primitive calls may fail with an
    exception message (`Except String Unit`); the Python `try/except` wrapper is
    the `Except`-catch in `execute_action`.
  * `ResponseParser.parse_action_plan` — the module src/src/llm/response_parser.py
    is not in the source tree, so it is modelled from the spec (see its doc comment).
  * `GeminiClient.analyze_page_and_plan`, `handle_error_recovery`,
    `execute_task` and `get_conversation_summary` (src/src/llm/gemini_client.py).

Python dict access `d.get(k)` on a possibly-missing key is modelled with
`Option`; a key that is absent and a key bound to `None` are both `none`.
Python `f"...{x}"` string interpolation of a possibly-`None` value is modelled
by `pyOptStr`, which renders `none` as `"None"` exactly as Python prints it.
Timestamps (`asyncio.get_event_loop().time()`) carry no information the claims
touch and are omitted from records.
-/

/-- Python rendering of an optional string inside an f-string:
`None` prints as `"None"`, a string prints as itself. -/
def pyOptStr : Option String → String
  | none => "None"
  | some s => s

/-- The dictionary returned by `BrowserController.execute_action`:
`{'success': bool, 'message': str}`. -/
structure ActionResult where
  success : Bool
  message : String
deriving DecidableEq

/-- The action dictionary handed to `execute_action` (produced by the model /
parser).  Each field is the value `action.get('<key>')` would see: `none` when
the key is missing or `None`.  `completes_task` is read with
`action.get('completes_task', False)`, hence a plain `Bool`. -/
structure ActionDict where
  type : Option String := none
  selector : Option String := none
  text : Option String := none
  url : Option String := none
  timeout : Option Int := none
  direction : Option String := none
  amount : Option Int := none
  value : Option String := none
  completes_task : Bool := false
deriving DecidableEq

/-- The Playwright `Page` boundary: each primitive driver call either succeeds
or raises an exception carrying a message.  The integer argument is the
timeout in milliseconds that the source passes. -/
structure Driver where
  click : Option String → Int → Except String Unit
  fill : Option String → Option String → Int → Except String Unit
  goto : Option String → Int → Except String Unit
  wait_for_selector : Option String → Int → Except String Unit
  evaluate : String → Except String Unit
  select_option : Option String → Option String → Int → Except String Unit

/-- The body of the `try:` block of `BrowserController.execute_action`
(src/src/browser/controller.py lines 167–210): dispatch on `action.get('type')`,
perform the matching driver call, and return the success dictionary; an
unrecognized type returns the failure dictionary without any driver call.
A driver exception propagates as `Except.error`. -/
def executeActionBody (page : Driver) (action : ActionDict) : Except String ActionResult :=
  match action.type with
  | some "click" => do
      page.click action.selector 10000
      pure ⟨true, "Clicked " ++ pyOptStr action.selector⟩
  | some "type" => do
      page.fill action.selector action.text 10000
      pure ⟨true, "Typed in " ++ pyOptStr action.selector⟩
  | some "navigate" => do
      page.goto action.url 30000
      pure ⟨true, "Navigated to " ++ pyOptStr action.url⟩
  | some "wait" => do
      page.wait_for_selector action.selector (action.timeout.getD 10000)
      pure ⟨true, "Waited for " ++ pyOptStr action.selector⟩
  | some "scroll" => do
      let direction := (action.direction).getD "down"
      let amount := (action.amount).getD 500
      if direction = "down" then
        page.evaluate ("window.scrollBy(0, " ++ toString amount ++ ")")
      else if direction = "up" then
        page.evaluate ("window.scrollBy(0, -" ++ toString amount ++ ")")
      else
        pure ()
      pure ⟨true, "Scrolled " ++ direction⟩
  | some "select" => do
      page.select_option action.selector action.value 10000
      pure ⟨true, "Selected " ++ pyOptStr action.value ++ " in " ++ pyOptStr action.selector⟩
  | t => pure ⟨false, "Unknown action type: " ++ pyOptStr t⟩

/-- `BrowserController.execute_action` (src/src/browser/controller.py lines
165–214): the whole body runs under `try/except Exception`, converting any
driver exception `e` into `{'success': False, 'message': f'Action failed: {e}'}`. -/
def execute_action (page : Driver) (action : ActionDict) : ActionResult :=
  match executeActionBody page action with
  | .ok r => r
  | .error e => ⟨false, "Action failed: " ++ e⟩

/-- The recognized action types of `execute_action`. -/
def recognizedActionTypes : List String :=
  ["click", "type", "navigate", "wait", "scroll", "select"]

/-- The action-plan dictionary flowing out of the parser and the planning
functions: `success` read via `.get('success', True)`, `error` via
`.get('error')`, `actions` via `.get('actions', [])`. -/
structure Analysis where
  success : Bool
  error : Option String
  actions : List ActionDict
deriving DecidableEq

/-- Modelled from the spec: `ResponseParser.parse_action_plan`
(src/src/llm/response_parser.py is absent from the source tree).  Per §4.1 the
parser extracts a structured payload from the raw model text; the input here is
that extraction outcome: `none` when no structured payload can be located, and
otherwise the list of candidate actions, each already checked against the
Action variant schema (`some a` for a valid action, `none` for a dropped
invalid one).  Per §4.1: no payload → `{success:false, error:"unparseable
response", actions:[]}`; an invalid action is dropped, not fatal, unless it is
the only action, in which case the plan is downgraded to `success:false`. -/
def parse_action_plan (extracted : Option (List (Option ActionDict))) : Analysis :=
  match extracted with
  | none => ⟨false, some "unparseable response", []⟩
  | some candidates =>
      let valid := candidates.filterMap id
      if candidates.length = 1 ∧ valid = [] then
        ⟨false, some "no valid actions in response", []⟩
      else
        ⟨true, none, valid⟩

/-- `GeminiClient.analyze_page_and_plan` (src/src/llm/gemini_client.py lines
32–61) as a function of the model-provider boundary: `resp` is either the
extraction input reaching the parser (`Except.ok`) or an exception raised by
prompt construction / `_generate_content` (`Except.error e`, the Python
`except Exception` path returning `{'success': False, 'error': str(e),
'actions': []}`). -/
def analyze_page_and_plan (resp : Except String (Option (List (Option ActionDict)))) :
    Analysis :=
  match resp with
  | .ok extracted => parse_action_plan extracted
  | .error e => ⟨false, some e, []⟩

/-- `GeminiClient.handle_error_recovery` (src/src/llm/gemini_client.py lines
136–155): identical boundary shape — parser output on success, the
`{'success': False, 'error': str(e), 'actions': []}` dictionary on an
exception. -/
def handle_error_recovery (resp : Except String (Option (List (Option ActionDict)))) :
    Analysis :=
  match resp with
  | .ok extracted => parse_action_plan extracted
  | .error e => ⟨false, some e, []⟩

/-- The executor result dictionary as the orchestrator reads it:
`result.get('task_complete', False)` defaults to `False` (the real
`execute_action` never sets the key, but the orchestrator reads it, so the
boundary contract keeps it, per the spec's `ExecutionOutcome.taskComplete`). -/
structure ExecOutcome where
  success : Bool
  message : String
  task_complete : Bool := false
deriving DecidableEq

/-- One entry of `execution_log`: `{'step': k, 'action': a, 'result': r}` for an
executed action, or `{'step': k, 'error': msg}` from the `except` branch of the
loop body. -/
inductive LogEntry where
  | act (step : Int) (action : ActionDict) (result : ExecOutcome)
  | err (step : Int) (msg : String)
deriving DecidableEq

/-- One record of `self.conversation_history`: the `page_analysis` record
appended by `analyze_page_and_plan` and the `task_execution` record appended at
the end of `execute_task` (timestamps and the page url omitted — no claim
touches them). -/
inductive HistoryRecord where
  | pageAnalysis (task : String) (plan : Analysis)
  | taskExecution (task : String) (steps : Int) (completed : Bool) (log : List LogEntry)
deriving DecidableEq

/-- The environment's behaviour at one loop iteration of `execute_task`:
either an exception raised inside the `try:` body before/while building the
page snapshot (`raise`), or the model-provider boundary response fed to
`analyze_page_and_plan` together with the executor outcome used if the plan's
first action is executed (`model`). -/
inductive StepEvent where
  | raise (msg : String)
  | model (resp : Except String (Option (List (Option ActionDict)))) (outcome : ExecOutcome)

/-- How the `while` loop of `execute_task` finishes: `earlyReturn` is the
`return f"Task failed at step ..."` statement on a planning failure (it skips
the history append at the bottom of the function); `fallthrough` reaches the
code after the loop with the final `step_count`, `task_completed`,
`execution_log` and conversation history. -/
inductive LoopExit where
  | earlyReturn (summary : String) (steps : Int) (log : List LogEntry)
      (hist : List HistoryRecord)
  | fallthrough (steps : Int) (completed : Bool) (log : List LogEntry)
      (hist : List HistoryRecord)
deriving DecidableEq

/-- The `while step_count < max_steps and not task_completed` loop of
`GeminiClient.execute_task` (src/src/llm/gemini_client.py lines 71–116).
`fuel` bounds the remaining iterations; `execute_task` supplies
`max_steps.toNat`, which is exact: the guard `step_count < max_steps` fails at
the same point, so the `fuel = 0` base case returns the same `fallthrough`.
Iteration body, for step `k = step_count + 1`:
  * an exception (`StepEvent.raise`) appends `{'step': k, 'error': msg}` and
    breaks out of the loop;
  * otherwise `analyze_page_and_plan` runs (appending its `page_analysis`
    history record exactly when no exception occurred inside it);
  * `if not analysis.get('success', True)` returns
    `f"Task failed at step {k}: {analysis.get('error')}"` immediately;
  * an empty `actions` list sets `task_completed = True` and breaks;
  * otherwise `actions[0]` is executed, the outcome is logged, and
    `task_completed` becomes true iff `action.get('completes_task', False)` or
    `result.get('task_complete', False)`; the loop then continues — the
    outcome's `success` flag is never consulted. -/
def execTaskLoop (env : Int → StepEvent) (task : String) (max_steps : Int) :
    Nat → Int → List LogEntry → List HistoryRecord → LoopExit
  | 0, step_count, log, hist => .fallthrough step_count false log hist
  | fuel + 1, step_count, log, hist =>
      if step_count < max_steps then
        let k := step_count + 1
        match env k with
        | .raise msg => .fallthrough k false (log ++ [.err k msg]) hist
        | .model resp outcome =>
            let analysis := analyze_page_and_plan resp
            let hist1 := match resp with
              | .ok _ => hist ++ [.pageAnalysis task analysis]
              | .error _ => hist
            if analysis.success = false then
              .earlyReturn ("Task failed at step " ++ toString k ++ ": "
                ++ pyOptStr analysis.error) k log hist1
            else
              match analysis.actions with
              | [] => .fallthrough k true log hist1
              | a :: _ =>
                  let log1 := log ++ [.act k a outcome]
                  if a.completes_task || outcome.task_complete then
                    .fallthrough k true log1 hist1
                  else
                    execTaskLoop env task max_steps fuel k log1 hist1
      else .fallthrough step_count false log hist

/-- The observable result of one `execute_task` run: the returned summary
string, the final `step_count`, `task_completed`, `execution_log`, the
conversation history after the run, and whether the run ended through the
early `return` of the planning-failure branch (`planFailed`). -/
structure TaskResult where
  summary : String
  steps : Int
  completed : Bool
  planFailed : Bool
  log : List LogEntry
  history : List HistoryRecord
deriving DecidableEq

/-- `GeminiClient.execute_task` (src/src/llm/gemini_client.py lines 63–134):
run the loop from `step_count = 0` with empty log over the starting
conversation history `hist0`; on loop fallthrough build the summary
(`task_completed` → success summary, otherwise the maximum-steps message) and
append the `task_execution` history record; the planning-failure `return`
bypasses both the summary construction and the history append. -/
def execute_task (env : Int → StepEvent) (task : String) (max_steps : Int)
    (hist0 : List HistoryRecord) : TaskResult :=
  match execTaskLoop env task max_steps max_steps.toNat 0 [] hist0 with
  | .earlyReturn summary steps log hist =>
      ⟨summary, steps, false, true, log, hist⟩
  | .fallthrough steps completed log hist =>
      let summary :=
        if completed then
          "✅ Task completed successfully in " ++ toString steps ++ " steps"
        else
          "⚠️ Task reached maximum steps (" ++ toString max_steps
            ++ ") without completion"
      ⟨summary, steps, completed, false, log,
        hist ++ [.taskExecution task steps completed log]⟩

/-- The dictionary returned by `GeminiClient.get_conversation_summary`
(src/src/llm/gemini_client.py lines 173–182). -/
structure ConversationSummary where
  total_interactions : Nat
  tasks_executed : Nat
  pages_analyzed : Nat
  history : List HistoryRecord
deriving DecidableEq

/-- Discriminates the `task_execution` history records (`h['type'] ==
'task_execution'`). -/
def isTaskExecutionRecord : HistoryRecord → Bool
  | .taskExecution _ _ _ _ => true
  | .pageAnalysis _ _ => false

/-- Discriminates the `page_analysis` history records (`h['type'] ==
'page_analysis'`). -/
def isPageAnalysisRecord : HistoryRecord → Bool
  | .pageAnalysis _ _ => true
  | .taskExecution _ _ _ _ => false

/-- Python's `l[-5:]`: the last five elements (the whole list when it has
fewer), in original order. -/
def pyLastFive (l : List HistoryRecord) : List HistoryRecord :=
  l.drop (l.length - 5)

/-- `GeminiClient.get_conversation_summary` (src/src/llm/gemini_client.py lines
173–182): aggregate counts over the full history, plus
`self.conversation_history[-5:]`. -/
def get_conversation_summary (conversation_history : List HistoryRecord) :
    ConversationSummary :=
  { total_interactions := conversation_history.length
    tasks_executed := (conversation_history.filter isTaskExecutionRecord).length
    pages_analyzed := (conversation_history.filter isPageAnalysisRecord).length
    history := pyLastFive conversation_history }

/-- The conversation history carried by a loop exit. -/
def LoopExit.histOf : LoopExit → List HistoryRecord
  | .earlyReturn _ _ _ h => h
  | .fallthrough _ _ _ h => h

/-- Number of `task_execution` records in a history. -/
def countTaskExecution (l : List HistoryRecord) : Nat :=
  (l.filter isTaskExecutionRecord).length

/-- A driver whose every primitive call succeeds. -/
def driverAllOk : Driver :=
  ⟨fun _ _ => .ok (), fun _ _ _ => .ok (), fun _ _ => .ok (),
   fun _ _ => .ok (), fun _ => .ok (), fun _ _ _ => .ok ()⟩

/-- C10. `execute_action` is total at its public interface: for every driver
behaviour and every action dictionary it returns a result with a Boolean
`success` and a string `message` (this is the codomain `ActionResult`), and it
is exactly the `try/except` image of the body: when the body completes, its
result is passed through unchanged; when a driver call raises `e`, the result
is `{'success': False, 'message': f'Action failed: {e}'}` — no exception
escapes. -/
theorem execute_action_total (page : Driver) (action : ActionDict) :
    (∃ r : ActionResult, executeActionBody page action = .ok r ∧
      execute_action page action = r) ∨
    (∃ e : String, executeActionBody page action = .error e ∧
      execute_action page action = ⟨false, "Action failed: " ++ e⟩) := by
  rcases h : executeActionBody page action with e | r
  · exact Or.inr ⟨e, rfl, by simp [execute_action, h]⟩
  · exact Or.inl ⟨r, rfl, by simp [execute_action, h]⟩

/-- C9 (counterexample). The claim states that an unrecognized action type
yields the message exactly `"Unknown action type"`; the source
(src/src/browser/controller.py line 210) interpolates the offending type into
the message: for `{'type': 'hover'}` it returns
`"Unknown action type: hover"`, which differs from the claimed string. -/
theorem c9_counterexample :
    execute_action driverAllOk { type := some "hover" } =
      ⟨false, "Unknown action type: hover"⟩ ∧
    "Unknown action type: hover" ≠ "Unknown action type" := by
  constructor
  · rfl
  · decide

/-- C9 (amended). For every action whose `type` is not one of `click`, `type`,
`navigate`, `wait`, `scroll`, `select`, `execute_action` returns
`{'success': False, 'message': f'Unknown action type: {action_type}'}` — the
fixed prefix `"Unknown action type"` followed by the offending type — and the
result is independent of the driver: no driver operation is performed. -/
theorem execute_action_unknown_type (page page' : Driver) (action : ActionDict)
    (h : ∀ t, action.type = some t → t ∉ recognizedActionTypes) :
    execute_action page action =
      ⟨false, "Unknown action type: " ++ pyOptStr action.type⟩ ∧
    execute_action page action = execute_action page' action := by
  rcases ha : action.type with _ | t
  · constructor <;>
      simp [execute_action, executeActionBody, ha, pyOptStr, pure, Except.pure]
  · have h1 := h t ha
    simp [recognizedActionTypes] at h1
    obtain ⟨n1, n2, n3, n4, n5, n6⟩ := h1
    constructor <;>
      simp [execute_action, executeActionBody, ha, pyOptStr, pure, Except.pure,
        n1, n2, n3, n4, n5, n6]

/-- C9 (witness). The amended theorem applied to the concrete action
`{'type': 'hover'}` and two distinct drivers. -/
theorem execute_action_unknown_type_witness :
    execute_action driverAllOk { type := some "hover" } =
      ⟨false, "Unknown action type: hover"⟩ ∧
    execute_action driverAllOk { type := some "hover" } =
      execute_action ⟨fun _ _ => .error "boom", fun _ _ _ => .error "boom",
        fun _ _ => .error "boom", fun _ _ => .error "boom",
        fun _ => .error "boom", fun _ _ _ => .error "boom"⟩
        { type := some "hover" } :=
  execute_action_unknown_type _ _ _ (by intro t ht; cases ht; decide)

/-- C2 (counterexample). The claim requires a failed plan's `error` field to be
a non-empty string; the exception branch of `analyze_page_and_plan`
(src/src/llm/gemini_client.py lines 55–61) stores `str(e)`, which is the empty
string for an exception constructed without a message, so the planning path can
produce `{'success': False, 'error': '', 'actions': []}`. -/
theorem c2_counterexample :
    (analyze_page_and_plan (.error "")).success = false ∧
    (analyze_page_and_plan (.error "")).actions = [] ∧
    (analyze_page_and_plan (.error "")).error = some "" ∧
    ("" : String).length = 0 := by
  refine ⟨rfl, rfl, rfl, rfl⟩

/-- C2 (amended). Every ActionPlan produced by the planning path
(`analyze_page_and_plan`) or the recovery path (`handle_error_recovery`)
satisfies: if its `success` field is false then its `actions` sequence is empty
and its `error` field is set (to a string that may be empty when an exception
message is empty). -/
theorem plan_failure_invariant
    (resp : Except String (Option (List (Option ActionDict)))) :
    ((analyze_page_and_plan resp).success = false →
      (analyze_page_and_plan resp).actions = [] ∧
      (analyze_page_and_plan resp).error ≠ none) ∧
    ((handle_error_recovery resp).success = false →
      (handle_error_recovery resp).actions = [] ∧
      (handle_error_recovery resp).error ≠ none) := by
  rcases resp with e | x
  · exact ⟨fun _ => ⟨rfl, by simp [analyze_page_and_plan]⟩,
      fun _ => ⟨rfl, by simp [handle_error_recovery]⟩⟩
  · have hmain : (parse_action_plan x).success = false →
        (parse_action_plan x).actions = [] ∧ (parse_action_plan x).error ≠ none := by
      rcases x with _ | cands
      · exact fun _ => ⟨rfl, by simp [parse_action_plan]⟩
      · intro hs
        by_cases hc : cands.length = 1 ∧ cands.filterMap id = []
        · simp [parse_action_plan, hc]
        · exfalso
          simp only [parse_action_plan] at hs
          rw [if_neg hc] at hs
          simp at hs
    exact ⟨hmain, hmain⟩

/-- C2 (witness). The amended invariant at the concrete exception response
`"boom"`, for both the planning and the recovery path. -/
theorem plan_failure_invariant_witness :
    (analyze_page_and_plan (.error "boom")).actions = [] ∧
    (handle_error_recovery (.error "boom")).error ≠ none :=
  ⟨((plan_failure_invariant (.error "boom")).1 rfl).1,
   ((plan_failure_invariant (.error "boom")).2 rfl).2⟩

/-- Appending a `page_analysis` record does not change the number of
`task_execution` records. -/
theorem countTaskExecution_append_pageAnalysis (h : List HistoryRecord)
    (t : String) (p : Analysis) :
    countTaskExecution (h ++ [.pageAnalysis t p]) = countTaskExecution h := by
  simp [countTaskExecution, List.filter_append, isTaskExecutionRecord]

/-- The loop of `execute_task` never appends a `task_execution` record: the
count of such records in the history carried by any loop exit equals the count
in the starting history. -/
theorem execTaskLoop_countTE (env : Int → StepEvent) (task : String) (ms : Int) :
    ∀ (fuel : Nat) (sc : Int) (log : List LogEntry) (hist : List HistoryRecord),
    countTaskExecution (execTaskLoop env task ms fuel sc log hist).histOf =
      countTaskExecution hist := by
  intro fuel
  induction fuel with
  | zero => intro sc log hist; rfl
  | succ n ih =>
      intro sc log hist
      simp only [execTaskLoop]
      by_cases hsc : sc < ms
      · rw [if_pos hsc]
        cases henv : env (sc + 1) with
        | raise msg => rfl
        | model resp outcome =>
          cases resp with
          | error e => rfl
          | ok x =>
            simp only [analyze_page_and_plan]
            by_cases hsuc : (parse_action_plan x).success = false
            · rw [if_pos hsuc]
              simpa [LoopExit.histOf] using
                countTaskExecution_append_pageAnalysis hist task (parse_action_plan x)
            · rw [if_neg hsuc]
              split
              · simpa [LoopExit.histOf] using
                  countTaskExecution_append_pageAnalysis hist task (parse_action_plan x)
              · split
                · simpa [LoopExit.histOf] using
                    countTaskExecution_append_pageAnalysis hist task (parse_action_plan x)
                · rw [ih]
                  exact countTaskExecution_append_pageAnalysis hist task (parse_action_plan x)
      · rw [if_neg hsc]; rfl

/-- Appending a `task_execution` record raises the count by one. -/
theorem countTaskExecution_append_taskExecution (h : List HistoryRecord)
    (t : String) (st : Int) (c : Bool) (lg : List LogEntry) :
    countTaskExecution (h ++ [.taskExecution t st c lg]) = countTaskExecution h + 1 := by
  simp [countTaskExecution, List.filter_append, isTaskExecutionRecord]

/-- Environment in which the model-provider call raises an exception `"boom"`
at every step (planning failure). -/
def envPlanError : Int → StepEvent :=
  fun _ => .model (.error "boom") ⟨true, "", false⟩

/-- Environment in which every step raises an exception inside the loop body
(e.g. the page snapshot fails hard). -/
def envRaise : Int → StepEvent :=
  fun _ => .raise "page closed"

/-- Environment in which the model always returns a successful plan with an
empty actions list. -/
def envEmptyPlan : Int → StepEvent :=
  fun _ => .model (.ok (some [])) ⟨true, "", false⟩

/-- C3 (counterexample). The claim says every run appends exactly one
`task_execution` history record at termination, including an abort caused by a
planning failure; but the planning-failure branch of `execute_task`
(src/src/llm/gemini_client.py line 85) is a `return` that bypasses the history
append at lines 125–132: with a model-provider exception at step 1, the run
terminates having appended no `task_execution` record (indeed no record at
all). -/
theorem c3_counterexample :
    (execute_task envPlanError "t" 5 []).planFailed = true ∧
    (execute_task envPlanError "t" 5 []).history = [] ∧
    countTaskExecution (execute_task envPlanError "t" 5 []).history = 0 := by
  exact ⟨rfl, rfl, rfl⟩

/-- C3 (amended). A run of `execute_task` over an empty starting history
appends exactly one `task_execution` record when it terminates COMPLETED,
EXHAUSTED, or ABORTED by an exception during a step — and appends none when it
terminates through the early `return` of the planning-failure branch. -/
theorem execute_task_history_count (env : Int → StepEvent) (task : String)
    (ms : Int) :
    countTaskExecution (execute_task env task ms []).history =
      if (execute_task env task ms []).planFailed then 0 else 1 := by
  have h := execTaskLoop_countTE env task ms ms.toNat 0 [] []
  unfold execute_task
  rcases hx : execTaskLoop env task ms ms.toNat 0 [] [] with ⟨s, st, lg, hh⟩ | ⟨st, cp, lg, hh⟩ <;>
    rw [hx] at h
  · have h' : countTaskExecution hh = 0 := by
      simpa [LoopExit.histOf, countTaskExecution] using h
    exact h'
  · have h' : countTaskExecution hh = 0 := by
      simpa [LoopExit.histOf, countTaskExecution] using h
    exact (countTaskExecution_append_taskExecution hh task st cp lg).trans (by rw [h']; rfl)

/-- In every `earlyReturn` loop exit (the planning-failure `return`), the
summary string is `f"Task failed at step {steps}: {error}"` for some error
text. -/
theorem execTaskLoop_earlyReturn_summary (env : Int → StepEvent) (task : String)
    (ms : Int) :
    ∀ (fuel : Nat) (sc : Int) (log : List LogEntry) (hist : List HistoryRecord)
      (s : String) (st : Int) (lg : List LogEntry) (hh : List HistoryRecord),
    execTaskLoop env task ms fuel sc log hist = .earlyReturn s st lg hh →
    ∃ e, s = "Task failed at step " ++ toString st ++ ": " ++ e := by
  intro fuel
  induction fuel with
  | zero =>
      intro sc log hist s st lg hh h
      simp [execTaskLoop] at h
  | succ n ih =>
      intro sc log hist s st lg hh h
      simp only [execTaskLoop] at h
      by_cases hsc : sc < ms
      · rw [if_pos hsc] at h
        split at h
        · simp at h
        · rename_i resp outcome heq
          by_cases hsuc : (analyze_page_and_plan resp).success = false
          · rw [if_pos hsuc] at h
            cases h
            exact ⟨_, rfl⟩
          · rw [if_neg hsuc] at h
            split at h
            · simp at h
            · split at h
              · simp at h
              · exact ih _ _ _ _ _ _ _ h
      · rw [if_neg hsc] at h
        simp at h

/-- C4 (counterexample). The claim says an ABORTED run caused by an exception
during a step yields a failure message including the causing error text; but
the `except` branch of the loop (src/src/llm/gemini_client.py lines 110–116)
only logs the error and `break`s, after which `task_completed` is still false,
so the summary is the step-budget message: with an exception `"page closed"`
at step 1 and `max_steps = 3`, the run stops at step 1 with the error logged,
yet the summary is the maximum-steps message, which does not contain
`"page closed"` at all. -/
theorem c4_counterexample :
    (execute_task envRaise "t" 3 []).log = [.err 1 "page closed"] ∧
    (execute_task envRaise "t" 3 []).steps = 1 ∧
    (execute_task envRaise "t" 3 []).summary =
      "⚠️ Task reached maximum steps (3) without completion" ∧
    (execute_task envRaise "t" 3 []).summary ≠
      "Task failed at step 1: page closed" := by
  refine ⟨rfl, rfl, rfl, by decide⟩

/-- C4 (amended). The terminal summary of `execute_task` is determined by the
terminal state as follows: a COMPLETED run yields the success summary
containing the step count; an EXHAUSTED run and a run ABORTED by an exception
during a step both yield the step-budget message (which does not mention the
exception); a run ABORTED by a planning failure yields a failure message
including the causing error text. -/
theorem execute_task_summary (env : Int → StepEvent) (task : String) (ms : Int) :
    ((execute_task env task ms []).planFailed = true →
      ∃ e, (execute_task env task ms []).summary =
        "Task failed at step " ++ toString (execute_task env task ms []).steps
          ++ ": " ++ e) ∧
    ((execute_task env task ms []).planFailed = false →
      (execute_task env task ms []).completed = true →
      (execute_task env task ms []).summary =
        "✅ Task completed successfully in "
          ++ toString (execute_task env task ms []).steps ++ " steps") ∧
    ((execute_task env task ms []).planFailed = false →
      (execute_task env task ms []).completed = false →
      (execute_task env task ms []).summary =
        "⚠️ Task reached maximum steps (" ++ toString ms
          ++ ") without completion") := by
  rcases hx : execTaskLoop env task ms ms.toNat 0 [] [] with ⟨s, st, lg, hh⟩ | ⟨st, cp, lg, hh⟩
  · have hr : execute_task env task ms [] = ⟨s, st, false, true, lg, hh⟩ := by
      unfold execute_task; rw [hx]
    obtain ⟨e, he⟩ :=
      execTaskLoop_earlyReturn_summary env task ms ms.toNat 0 [] [] s st lg hh hx
    refine ⟨fun _ => ⟨e, ?_⟩, fun hf => ?_, fun hf => ?_⟩
    · rw [hr]; exact he
    · rw [hr] at hf; simp at hf
    · rw [hr] at hf; simp at hf
  · refine ⟨fun hpf => absurd hpf ?_, fun _ hcp => ?_, fun _ hcp => ?_⟩
    · unfold execute_task; rw [hx]; simp
    · have hc : cp = true := by
        have := hcp; unfold execute_task at this; rw [hx] at this; exact this
      unfold execute_task
      rw [hx]
      simp [hc]
    · have hc : cp = false := by
        have := hcp; unfold execute_task at this; rw [hx] at this; exact this
      unfold execute_task
      rw [hx]
      simp [hc]

/-- C4 (witness). The amended summary characterization applied to a run that
completes at step 1 (empty plan) and a run aborted by a step exception. -/
theorem execute_task_summary_witness :
    (execute_task envEmptyPlan "t" 10 []).summary =
      "✅ Task completed successfully in 1 steps" ∧
    (execute_task envRaise "t" 3 []).summary =
      "⚠️ Task reached maximum steps (3) without completion" :=
  ⟨(execute_task_summary envEmptyPlan "t" 10).2.1 rfl rfl,
   (execute_task_summary envRaise "t" 3).2.2 rfl rfl⟩

/-- C7. Running `execute_task` with `max_steps ≤ 0` performs no loop iteration:
the guard `step_count < max_steps` fails at once, so the run terminates with
`steps = 0`, not completed, empty log, the step-budget (EXHAUSTED) summary, and
the result is independent of the environment — neither the model provider nor
the driver is contacted. -/
theorem execute_task_nonpositive_maxsteps (env env' : Int → StepEvent)
    (task : String) (ms : Int) (h : ms ≤ 0) :
    (execute_task env task ms []).steps = 0 ∧
    (execute_task env task ms []).completed = false ∧
    (execute_task env task ms []).planFailed = false ∧
    (execute_task env task ms []).log = [] ∧
    (execute_task env task ms []).summary =
      "⚠️ Task reached maximum steps (" ++ toString ms ++ ") without completion" ∧
    execute_task env task ms [] = execute_task env' task ms [] := by
  have h0 : ms.toNat = 0 := Int.toNat_of_nonpos h
  unfold execute_task
  rw [h0]
  exact ⟨rfl, rfl, rfl, rfl, rfl, rfl⟩

/-- One unfolding of the loop at an iteration whose plan parses to a
successful plan with first action `a` (candidate list `some a :: rest`) and
whose executed outcome does not complete the task: the iteration appends the
ordinary log entry and the `page_analysis` record and the loop continues with
the next step — regardless of the outcome's `success` flag, which the loop
never reads. -/
theorem execTaskLoop_step_action (env : Int → StepEvent) (task : String)
    (ms : Int) (fuel : Nat) (sc : Int) (log : List LogEntry)
    (hist : List HistoryRecord) (a : ActionDict) (rest : List (Option ActionDict))
    (o : ExecOutcome)
    (henv : env (sc + 1) = .model (.ok (some (some a :: rest))) o)
    (hct : a.completes_task = false) (htc : o.task_complete = false)
    (hsc : sc < ms) :
    execTaskLoop env task ms (fuel + 1) sc log hist =
      execTaskLoop env task ms fuel (sc + 1) (log ++ [.act (sc + 1) a o])
        (hist ++ [.pageAnalysis task
          (analyze_page_and_plan (.ok (some (some a :: rest))))]) := by
  have hcond : ¬((some a :: rest).length = 1 ∧ (some a :: rest).filterMap id = []) := by
    rintro ⟨-, hc⟩
    simp [List.filterMap_cons] at hc
  have hplan : analyze_page_and_plan (.ok (some (some a :: rest))) =
      ⟨true, none, a :: rest.filterMap id⟩ := by
    simp only [analyze_page_and_plan, parse_action_plan]
    rw [if_neg hcond]
    simp [List.filterMap_cons]
  simp only [execTaskLoop]
  rw [if_pos hsc, henv, hplan]
  simp [hct, htc, hplan]

/-- C5. If the model always returns a successful plan with an empty actions
list, `execute_task` (with any positive step budget) terminates COMPLETED
after exactly one step: the empty `actions` sets `task_completed` at step 1,
the execution log stays empty (no action is handed to the executor), and the
summary is the one-step success message. -/
theorem execute_task_empty_plan (env : Int → StepEvent) (task : String)
    (ms : Int) (hms : 1 ≤ ms)
    (henv : ∀ k : Int, ∃ o, env k = .model (.ok (some [])) o) :
    (execute_task env task ms []).steps = 1 ∧
    (execute_task env task ms []).completed = true ∧
    (execute_task env task ms []).planFailed = false ∧
    (execute_task env task ms []).log = [] ∧
    (execute_task env task ms []).summary =
      "✅ Task completed successfully in 1 steps" := by
  obtain ⟨o, h1⟩ := henv 1
  obtain ⟨n, hn⟩ : ∃ n, ms.toNat = n + 1 := ⟨ms.toNat - 1, by omega⟩
  have hloop : execTaskLoop env task ms ms.toNat 0 [] [] =
      .fallthrough 1 true [] [.pageAnalysis task ⟨true, none, []⟩] := by
    rw [hn]
    simp only [execTaskLoop]
    rw [if_pos (by omega : (0 : Int) < ms)]
    rw [show (0 : Int) + 1 = 1 by norm_num] at *
    rw [h1]
    rfl
  unfold execute_task
  rw [hloop]
  exact ⟨rfl, rfl, rfl, rfl, rfl⟩

/-- C5 (witness). The theorem at the always-empty-plan environment with the
default step budget 10. -/
theorem execute_task_empty_plan_witness :
    (execute_task envEmptyPlan "t" 10 []).steps = 1 ∧
    (execute_task envEmptyPlan "t" 10 []).completed = true ∧
    (execute_task envEmptyPlan "t" 10 []).log = [] :=
  ⟨(execute_task_empty_plan envEmptyPlan "t" 10 (by decide)
      (fun _ => ⟨⟨true, "", false⟩, rfl⟩)).1,
   (execute_task_empty_plan envEmptyPlan "t" 10 (by decide)
      (fun _ => ⟨⟨true, "", false⟩, rfl⟩)).2.1,
   (execute_task_empty_plan envEmptyPlan "t" 10 (by decide)
      (fun _ => ⟨⟨true, "", false⟩, rfl⟩)).2.2.2.1⟩

/-- If every step up to the budget produces a successful plan whose first
action does not complete the task and an outcome with `task_complete` false,
the loop runs its full remaining budget, never completes, and adds one log
entry per iteration. -/
theorem execTaskLoop_always_step (env : Int → StepEvent) (task : String)
    (ms : Int)
    (H : ∀ k : Int, 0 < k → k ≤ ms → ∃ a rest o,
      env k = .model (.ok (some (some a :: rest))) o ∧
      a.completes_task = false ∧ o.task_complete = false) :
    ∀ (n : Nat) (sc : Int) (log : List LogEntry) (hist : List HistoryRecord),
      0 ≤ sc → sc ≤ ms → (ms - sc).toNat = n →
      ∃ lg hh, execTaskLoop env task ms n sc log hist = .fallthrough ms false lg hh ∧
        lg.length = log.length + n := by
  intro n
  induction n with
  | zero =>
      intro sc log hist h0 hle hn
      have hsc : sc = ms := by omega
      subst hsc
      exact ⟨log, hist, rfl, by omega⟩
  | succ n ih =>
      intro sc log hist h0 hle hn
      have hsc : sc < ms := by omega
      obtain ⟨a, rest, o, henv, hct, htc⟩ := H (sc + 1) (by omega) (by omega)
      obtain ⟨lg, hh, hrec, hlen⟩ := ih (sc + 1) (log ++ [.act (sc + 1) a o])
        (hist ++ [.pageAnalysis task
          (analyze_page_and_plan (.ok (some (some a :: rest))))])
        (by omega) (by omega) (by omega)
      refine ⟨lg, hh, ?_, ?_⟩
      · rw [execTaskLoop_step_action env task ms n sc log hist a rest o henv hct htc hsc]
        exact hrec
      · rw [hlen]
        simp
        omega

/-- C6. For every positive budget `N`, if the model always returns a
successful plan whose first action has `completes_task` false and every
execution returns a successful outcome with `task_complete` false, then
`execute_task` with `max_steps = N` terminates EXHAUSTED after exactly `N`
steps with an execution log of length exactly `N`. -/
theorem execute_task_exhausts (N : Int) (env : Int → StepEvent) (task : String)
    (hN : 1 ≤ N)
    (H : ∀ k : Int, 0 < k → k ≤ N → ∃ a rest o,
      env k = .model (.ok (some (some a :: rest))) o ∧
      a.completes_task = false ∧ o.success = true ∧ o.task_complete = false) :
    (execute_task env task N []).steps = N ∧
    (execute_task env task N []).completed = false ∧
    (execute_task env task N []).planFailed = false ∧
    (execute_task env task N []).log.length = N.toNat ∧
    (execute_task env task N []).summary =
      "⚠️ Task reached maximum steps (" ++ toString N ++ ") without completion" := by
  have H' : ∀ k : Int, 0 < k → k ≤ N → ∃ a rest o,
      env k = .model (.ok (some (some a :: rest))) o ∧
      a.completes_task = false ∧ o.task_complete = false := by
    intro k h1 h2
    obtain ⟨a, rest, o, he, hc, -, ht⟩ := H k h1 h2
    exact ⟨a, rest, o, he, hc, ht⟩
  obtain ⟨lg, hh, hloop, hlen⟩ :=
    execTaskLoop_always_step env task N H' N.toNat 0 [] [] (le_refl 0)
      (by omega) (by omega)
  unfold execute_task
  rw [hloop]
  refine ⟨rfl, rfl, rfl, by simpa using hlen, rfl⟩

/-- The concrete click action used in the concrete environments below. -/
def actClick : ActionDict := { type := some "click", selector := some "#b" }

/-- Environment that always plans the single non-completing click action with
a successful, non-completing outcome. -/
def envOneAction : Int → StepEvent :=
  fun _ => .model (.ok (some [some actClick])) ⟨true, "Clicked #b", false⟩

/-- C6 (witness). The theorem at `N = 3` with the constant one-action
environment. -/
theorem execute_task_exhausts_witness :
    (execute_task envOneAction "t" 3 []).steps = 3 ∧
    (execute_task envOneAction "t" 3 []).log.length = 3 :=
  ⟨(execute_task_exhausts 3 envOneAction "t" (by decide)
      (fun _ _ _ => ⟨actClick, [], ⟨true, "Clicked #b", false⟩, rfl, rfl, rfl, rfl⟩)).1,
   (execute_task_exhausts 3 envOneAction "t" (by decide)
      (fun _ _ _ => ⟨actClick, [], ⟨true, "Clicked #b", false⟩, rfl, rfl, rfl, rfl⟩)).2.2.2.1⟩

/-- Environment whose step 1 executes an action whose outcome fails
(`success = false`), and whose later steps plan an empty actions list. -/
def envFailThenEmpty : Int → StepEvent := fun k =>
  if k = 1 then
    .model (.ok (some [some actClick]))
      ⟨false, "Action failed: Timeout 10000ms exceeded.", false⟩
  else .model (.ok (some [])) ⟨true, "", false⟩

/-- C1 (counterexample). The claim says an `ExecutionOutcome` with
`success = false` makes the orchestrator append an error entry and terminate
the loop (ABORTED); but the loop (src/src/llm/gemini_client.py lines 95–108)
never reads `result['success']`: with a failing outcome at step 1 and
`max_steps = 2`, step 2 still runs and the run terminates COMPLETED at step 2,
the failed outcome having been recorded as an ordinary (non-error) log
entry. -/
theorem c1_counterexample :
    (execute_task envFailThenEmpty "t" 2 []).steps = 2 ∧
    (execute_task envFailThenEmpty "t" 2 []).completed = true ∧
    (execute_task envFailThenEmpty "t" 2 []).planFailed = false ∧
    (execute_task envFailThenEmpty "t" 2 []).log =
      [.act 1 actClick ⟨false, "Action failed: Timeout 10000ms exceeded.", false⟩] := by
  refine ⟨rfl, rfl, rfl, rfl⟩

/-- C1 (amended). An executed action that fails at the driver boundary
surfaces as an `ExecutionOutcome` with `success = false`; the orchestrator
records it as an ordinary log entry and proceeds to the next loop iteration —
it does not abort. (Only an exception raised inside the step body stops the
loop.) -/
theorem failed_outcome_continues_loop (env : Int → StepEvent) (task : String)
    (ms : Int) (fuel : Nat) (sc : Int) (log : List LogEntry)
    (hist : List HistoryRecord) (a : ActionDict) (rest : List (Option ActionDict))
    (o : ExecOutcome)
    (henv : env (sc + 1) = .model (.ok (some (some a :: rest))) o)
    (_hfail : o.success = false)
    (hct : a.completes_task = false) (htc : o.task_complete = false)
    (hsc : sc < ms) :
    execTaskLoop env task ms (fuel + 1) sc log hist =
      execTaskLoop env task ms fuel (sc + 1) (log ++ [.act (sc + 1) a o])
        (hist ++ [.pageAnalysis task
          (analyze_page_and_plan (.ok (some (some a :: rest))))]) :=
  execTaskLoop_step_action env task ms fuel sc log hist a rest o henv hct htc hsc

/-- C1 (witness). The amended theorem applied to the concrete failing-outcome
environment at step 1 with budget 2: the loop continues into iteration 2. -/
theorem failed_outcome_continues_loop_witness :
    execTaskLoop envFailThenEmpty "t" 2 2 0 [] [] =
      execTaskLoop envFailThenEmpty "t" 2 1 1
        [.act 1 actClick ⟨false, "Action failed: Timeout 10000ms exceeded.", false⟩]
        [.pageAnalysis "t" (analyze_page_and_plan (.ok (some [some actClick])))] :=
  failed_outcome_continues_loop envFailThenEmpty "t" 2 1 0 [] [] actClick []
    ⟨false, "Action failed: Timeout 10000ms exceeded.", false⟩
    rfl rfl rfl rfl (by decide)

/-- C7 (witness). The theorem at `max_steps = 0` with two different
environments. -/
theorem execute_task_nonpositive_maxsteps_witness :
    (execute_task envRaise "t" 0 []).steps = 0 ∧
    execute_task envRaise "t" 0 [] = execute_task envEmptyPlan "t" 0 [] :=
  ⟨(execute_task_nonpositive_maxsteps envRaise envEmptyPlan "t" 0 (by decide)).1,
   (execute_task_nonpositive_maxsteps envRaise envEmptyPlan "t" 0 (by decide)).2.2.2.2.2⟩

/-- C8. For every state of the conversation history,
`get_conversation_summary` returns in its `history` field exactly the last
five records (`conversation_history[-5:]`): a suffix of the full history, of
length `min 5 n`, equal to the whole history when it has at most five records;
and the aggregate counts `total_interactions`, `tasks_executed`,
`pages_analyzed` are computed over the full, untruncated history. -/
theorem get_conversation_summary_spec (h : List HistoryRecord) :
    (get_conversation_summary h).history = h.drop (h.length - 5) ∧
    (get_conversation_summary h).history.length = min 5 h.length ∧
    (get_conversation_summary h).history.IsSuffix h ∧
    (h.length ≤ 5 → (get_conversation_summary h).history = h) ∧
    (get_conversation_summary h).total_interactions = h.length ∧
    (get_conversation_summary h).tasks_executed =
      (h.filter isTaskExecutionRecord).length ∧
    (get_conversation_summary h).pages_analyzed =
      (h.filter isPageAnalysisRecord).length := by
  refine ⟨rfl, ?_, ?_, ?_, rfl, rfl, rfl⟩
  · simp only [get_conversation_summary, pyLastFive, List.length_drop]
    omega
  · exact List.drop_suffix _ _
  · intro hle
    simp only [get_conversation_summary, pyLastFive]
    have : h.length - 5 = 0 := by omega
    rw [this, List.drop_zero]

/-- C8 (witness). The theorem at a concrete seven-record history: the
returned history is the last five records and the counts cover all seven. -/
theorem get_conversation_summary_spec_witness :
    (get_conversation_summary
      [.taskExecution "a" 1 true [], .pageAnalysis "b" ⟨true, none, []⟩,
       .pageAnalysis "c" ⟨true, none, []⟩, .pageAnalysis "d" ⟨true, none, []⟩,
       .taskExecution "e" 2 false [], .pageAnalysis "f" ⟨true, none, []⟩,
       .pageAnalysis "g" ⟨true, none, []⟩]).history =
      [.pageAnalysis "c" ⟨true, none, []⟩, .pageAnalysis "d" ⟨true, none, []⟩,
       .taskExecution "e" 2 false [], .pageAnalysis "f" ⟨true, none, []⟩,
       .pageAnalysis "g" ⟨true, none, []⟩] ∧
    (get_conversation_summary
      [.taskExecution "a" 1 true [], .pageAnalysis "b" ⟨true, none, []⟩,
       .pageAnalysis "c" ⟨true, none, []⟩, .pageAnalysis "d" ⟨true, none, []⟩,
       .taskExecution "e" 2 false [], .pageAnalysis "f" ⟨true, none, []⟩,
       .pageAnalysis "g" ⟨true, none, []⟩]).total_interactions = 7 ∧
    (get_conversation_summary
      [.pageAnalysis "b" ⟨true, none, []⟩, .taskExecution "a" 1 true []]).history =
      [.pageAnalysis "b" ⟨true, none, []⟩, .taskExecution "a" 1 true []] :=
  ⟨(get_conversation_summary_spec _).1.trans rfl,
   (get_conversation_summary_spec _).2.2.2.2.1.trans rfl,
   (get_conversation_summary_spec _).2.2.2.1 (by decide)⟩
